import Mathlib

/-!
Verification of the event-sourced store of the bieterrunde server.

The event types, their constructors, `validate`/`execute` methods and the
tag-dispatch function `getEvent` are embedded from the Go source file that
defines them.  The `Database` record type, the phase constants and the
log/replay driver are not part of the reviewed sources; those pieces are
modelled from the specification and are marked as such in their doc comments.
-/

namespace Bieterrunde

/-- A Go `json.RawMessage` is a byte slice that may be nil.  The standard
library predicate `json.Valid` is abstracted as a verdict carried with the
bytes: `bytes valid content` stands for a non-nil slice whose `json.Valid`
result is `valid`. -/
inductive RawMessage where
  | nil : RawMessage
  | bytes (valid : Bool) (content : String) : RawMessage
deriving DecidableEq

/-- Whether the Go byte slice is nil (`payload == nil`). -/
def RawMessage.isNil : RawMessage → Bool
  | .nil => true
  | .bytes _ _ => false

/-- `json.Valid(payload)`: false on a nil slice (empty input is not valid
JSON), otherwise the verdict carried with the bytes. -/
def jsonValid : RawMessage → Bool
  | .nil => false
  | .bytes v _ => v

/-- `ServiceState` is an integer-typed enumeration in the Go code
(`newEventStatus` casts it with `int(...)`). -/
abbrev ServiceState := Int

/-- Modelled from the spec: the phase constants, Registration=1, Offer=2,
Closed=3; their defining Go file is not among the reviewed sources. -/
def stateRegistration : ServiceState := 1

/-- Modelled from the spec: the Offer phase constant, value 2. -/
def stateOffer : ServiceState := 2

/-- Modelled from the spec: the Closed phase constant, value 3. -/
def stateClosed : ServiceState := 3

/-- Modelled from the spec: the in-memory store: a map of member (bieter)
records, a map of offers, and the current phase.  The Go `Database` struct is
not among the reviewed sources; its three fields are read and written by the
embedded event methods exactly as the Go methods do. -/
structure Database where
  bieter : String → Option RawMessage
  offer : String → Option Int
  state : ServiceState

/-- Modelled from the spec: the initial store state (empty members, empty
offers, phase = Registration). -/
def emptyDatabase : Database :=
  { bieter := fun _ => none, offer := fun _ => none, state := stateRegistration }

/-- Modelled from the spec: `Offer(id)` is a pure read returning 0 if the id
has no offer entry. -/
def Database.Offer (db : Database) (id : String) : Int :=
  (db.offer id).getD 0

/-- Modelled from the spec: `Phase()` / `State()` is a pure read of the
current phase. -/
def Database.State (db : Database) : ServiceState :=
  db.state

/-- The caller-facing validation error type. -/
structure validationError where
  msg : String
deriving DecidableEq

def errIDExists : validationError := ⟨"Bieter ID existiert bereits"⟩

/-- Rendering of Go `%q` applied to a string (quoting; escaping of special
characters inside the id is not load-bearing for any claim). -/
def goQuote (s : String) : String := "\"" ++ s ++ "\""

def lowestOffer : Int := 4000

/-- The update/create event.  `ID` and `Payload` are exported (JSON tags
`id` and `payload`); `create` and `asAdmin` are unexported and therefore
dropped by JSON encoding. -/
structure eventUpdate where
  ID : String
  Payload : RawMessage
  create : Bool
  asAdmin : Bool
deriving DecidableEq

/-- `newEventUpdate`: rejects a nil payload, then an invalid JSON payload;
otherwise builds the event with `create = false`.  On error Go returns the
zero-valued struct alongside the error. -/
def newEventUpdate (id : String) (payload : RawMessage) (asAdmin : Bool) :
    eventUpdate × Option validationError :=
  if payload.isNil then
    (⟨"", .nil, false, false⟩, some ⟨"Keine Daten übergeben"⟩)
  else if !(jsonValid payload) then
    (⟨"", .nil, false, false⟩, some ⟨"Ungültige Daten übergeben"⟩)
  else
    (⟨id, payload, false, asAdmin⟩, none)

/-- `newEventCreate` calls `newEventUpdate` and then sets `create = true` on
the returned struct (also on the error path, as the Go code does). -/
def newEventCreate (id : String) (payload : RawMessage) (asAdmin : Bool) :
    eventUpdate × Option validationError :=
  let p := newEventUpdate id payload asAdmin
  ({ p.1 with create := true }, p.2)

/-- `eventUpdate.validate`: non-admins need phase Registration; a create
fails if the id already exists, a plain update fails if it does not. -/
def eventUpdate.validate (e : eventUpdate) (db : Database) :
    Option validationError :=
  if !e.asAdmin && db.state != stateRegistration then
    some ⟨"invalid state"⟩
  else if e.create then
    if (db.bieter e.ID).isSome then some errIDExists else none
  else if !(db.bieter e.ID).isSome then
    some ⟨"Bieter " ++ goQuote e.ID ++ " does not exist"⟩
  else
    none

/-- `eventUpdate.execute`: `db.bieter[e.ID] = e.Payload` (the Go method's
error result is always nil). -/
def eventUpdate.execute (e : eventUpdate) (db : Database) : Database :=
  { db with bieter := fun i => if i = e.ID then some e.Payload else db.bieter i }

/-- The delete event.  `ID` is exported (JSON tag `id`); `asAdmin` is
unexported. -/
structure eventDelete where
  ID : String
  asAdmin : Bool
deriving DecidableEq

def newEventDelete (id : String) (asAdmin : Bool) : eventDelete :=
  ⟨id, asAdmin⟩

/-- `eventDelete.validate`: non-admins need phase Registration; nothing else
is checked. -/
def eventDelete.validate (e : eventDelete) (db : Database) :
    Option validationError :=
  if !e.asAdmin && db.state != stateRegistration then
    some ⟨"invalid state"⟩
  else
    none

/-- `eventDelete.execute`: `delete(db.bieter, e.ID)`. -/
def eventDelete.execute (e : eventDelete) (db : Database) : Database :=
  { db with bieter := fun i => if i = e.ID then none else db.bieter i }

/-- The phase-change event.  `NewState` is exported (JSON tag `state`). -/
structure eventServiceState where
  NewState : ServiceState
deriving DecidableEq

/-- `newEventStatus`: rejects any value outside 1..3. -/
def newEventStatus (newState : ServiceState) :
    eventServiceState × Option validationError :=
  if newState < 1 || newState > 3 then
    (⟨0⟩, some ⟨"Ungültiger State mit nummer " ++ toString newState⟩)
  else
    (⟨newState⟩, none)

/-- `eventServiceState.validate`: no checks. -/
def eventServiceState.validate (_ : eventServiceState) (_ : Database) :
    Option validationError :=
  none

/-- `eventServiceState.execute`: `db.state = e.NewState`. -/
def eventServiceState.execute (e : eventServiceState) (db : Database) :
    Database :=
  { db with state := e.NewState }

/-- The offer event.  `ID` and `Offer` are exported (JSON tags `id`,
`offer`); `asAdmin` is unexported. -/
structure eventOffer where
  ID : String
  Offer : Int
  asAdmin : Bool
deriving DecidableEq

/-- `newEventOffer`: rejects an amount below `lowestOffer` before looking at
anything else. -/
def newEventOffer (id : String) (offer : Int) (asAdmin : Bool) :
    eventOffer × Option validationError :=
  if offer < lowestOffer then
    (⟨"", 0, false⟩,
      some ⟨"Das Gebot muss mindestens " ++ toString lowestOffer ++
        " sein, nicht " ++ toString offer⟩)
  else
    (⟨id, offer, asAdmin⟩, none)

/-- `eventOffer.validate`: non-admins need phase Offer; the target id must
exist in the bieter map (also for admins). -/
def eventOffer.validate (e : eventOffer) (db : Database) :
    Option validationError :=
  if !e.asAdmin && db.state != stateOffer then
    some ⟨"invalid state"⟩
  else if !(db.bieter e.ID).isSome then
    some ⟨"Bieter " ++ goQuote e.ID ++ " does not exist"⟩
  else
    none

/-- `eventOffer.execute`: `db.offer[e.ID] = e.Offer`. -/
def eventOffer.execute (e : eventOffer) (db : Database) : Database :=
  { db with offer := fun i => if i = e.ID then some e.Offer else db.offer i }

/-- The clear-offers event; it has no fields. -/
structure eventOfferClear
deriving DecidableEq

def newEventOfferClear : eventOfferClear := ⟨⟩

/-- `eventOfferClear.validate`: no checks. -/
def eventOfferClear.validate (_ : eventOfferClear) (_ : Database) :
    Option validationError :=
  none

/-- `eventOfferClear.execute`: `db.offer = make(map[string]int)`. -/
def eventOfferClear.execute (_ : eventOfferClear) (db : Database) : Database :=
  { db with offer := fun _ => none }

/-- The closed sum of the five event implementations returned by
`getEvent` (the Go `Event` interface). -/
inductive Event where
  | update (e : eventUpdate)
  | delete (e : eventDelete)
  | state (e : eventServiceState)
  | offer (e : eventOffer)
  | offerClear (e : eventOfferClear)
deriving DecidableEq

/-- Dispatch of `validate` through the `Event` interface. -/
def Event.validate : Event → Database → Option validationError
  | .update e, db => e.validate db
  | .delete e, db => e.validate db
  | .state e, db => e.validate db
  | .offer e, db => e.validate db
  | .offerClear e, db => e.validate db

/-- Dispatch of `execute` through the `Event` interface. -/
def Event.execute : Event → Database → Database
  | .update e, db => e.execute db
  | .delete e, db => e.execute db
  | .state e, db => e.execute db
  | .offer e, db => e.execute db
  | .offerClear e, db => e.execute db

/-- `Name()`: the stable type tag of each event variant. -/
def Event.Name : Event → String
  | .update _ => "update"
  | .delete _ => "delete"
  | .state _ => "state"
  | .offer _ => "offer"
  | .offerClear _ => "offer-clear"

/-- The JSON object body of a log record: the union of the exported JSON
fields of the event structs (`id`, `payload`, `state`, `offer`); a field
absent from the object is `none`. -/
structure RecordData where
  id : Option String
  payload : Option RawMessage
  state : Option ServiceState
  offer : Option Int
deriving DecidableEq

/-- A log record: the event's type tag and its JSON-encoded body. -/
structure LogRecord where
  tag : String
  data : RecordData
deriving DecidableEq

/-- Modelled from the spec: the log writer encodes an accepted event as its
type tag plus the JSON encoding of the event struct; JSON encoding keeps
exactly the exported fields (per the json struct tags) and drops the
unexported `create`/`asAdmin` flags.  The writer itself is not among the
reviewed sources. -/
def Event.encode : Event → LogRecord
  | .update e => ⟨"update", ⟨some e.ID, some e.Payload, none, none⟩⟩
  | .delete e => ⟨"delete", ⟨some e.ID, none, none, none⟩⟩
  | .state e => ⟨"state", ⟨none, none, some e.NewState, none⟩⟩
  | .offer e => ⟨"offer", ⟨some e.ID, none, none, some e.Offer⟩⟩
  | .offerClear _ => ⟨"offer-clear", ⟨none, none, none, none⟩⟩

/-- `getEvent`: resolve the event implementation by its type tag, `none`
(Go nil, "no such event") for an unrecognized tag.  Combined here with the
`json.Unmarshal` of the record body into the returned zero-valued struct:
an absent field and every unexported field keeps its zero value. -/
def getEvent (eventType : String) (data : RecordData) : Option Event :=
  match eventType with
  | "update" => some (.update ⟨data.id.getD "", data.payload.getD .nil, false, false⟩)
  | "delete" => some (.delete ⟨data.id.getD "", false⟩)
  | "state" => some (.state ⟨data.state.getD 0⟩)
  | "offer" => some (.offer ⟨data.id.getD "", data.offer.getD 0, false⟩)
  | "offer-clear" => some (.offerClear ⟨⟩)
  | _ => none

/-- Modelled from the spec: `Store.Apply` under the lock — run
`e.validate`; on failure return the error untouched with state and log
unchanged; on success append the encoded event to the log and run
`e.execute`.  The Go `Database.writeEvent` method is not among the reviewed
sources. -/
def writeEvent (db : Database) (log : List LogRecord) (e : Event) :
    Database × List LogRecord × Option validationError :=
  match e.validate db with
  | some err => (db, log, some err)
  | none => (e.execute db, log ++ [e.encode], none)

/-- Modelled from the spec: live operation from a given state — each event
is validated against the current state; a rejected event leaves state and
log untouched, an accepted one is appended (encoded) to the log and
executed.  Returns the terminal state and the log records appended. -/
def liveRunFrom (db : Database) : List Event → Database × List LogRecord
  | [] => (db, [])
  | e :: es =>
    match e.validate db with
    | some _ => liveRunFrom db es
    | none =>
      let p := liveRunFrom (e.execute db) es
      (p.1, e.encode :: p.2)

/-- Live operation from the empty initial store. -/
def liveRun (events : List Event) : Database × List LogRecord :=
  liveRunFrom emptyDatabase events

/-- Modelled from the spec: startup replay from a given state — each record
is decoded by its type tag via `getEvent` and applied via `execute` only;
an unrecognized tag fails the whole replay. -/
def replayFrom (db : Database) : List LogRecord → Option Database
  | [] => some db
  | r :: rs =>
    match getEvent r.tag r.data with
    | none => none
    | some e => replayFrom (e.execute db) rs

/-- Startup replay from the empty initial store. -/
def replay (log : List LogRecord) : Option Database :=
  replayFrom emptyDatabase log

/-- Decoding an encoded event erases the unexported fields: the event with
`create`/`asAdmin` reset to their zero value `false`. -/
def Event.strip : Event → Event
  | .update e => .update ⟨e.ID, e.Payload, false, false⟩
  | .delete e => .delete ⟨e.ID, false⟩
  | .state e => .state ⟨e.NewState⟩
  | .offer e => .offer ⟨e.ID, e.Offer, false⟩
  | .offerClear _ => .offerClear ⟨⟩

theorem getEvent_encode (e : Event) :
    getEvent e.encode.tag e.encode.data = some e.strip := by
  cases e <;> rfl

theorem strip_execute (e : Event) (db : Database) :
    e.strip.execute db = e.execute db := by
  cases e <;> rfl

theorem replayFrom_liveRunFrom (events : List Event) :
    ∀ db : Database,
      replayFrom db (liveRunFrom db events).2 = some (liveRunFrom db events).1 := by
  induction events with
  | nil => intro db; rfl
  | cons e es ih =>
    intro db
    cases h : e.validate db with
    | some err =>
      simp only [liveRunFrom, h]
      exact ih db
    | none =>
      simp only [liveRunFrom, h, replayFrom, getEvent_encode, strip_execute]
      exact ih (e.execute db)

/-- Concrete databases used by witnesses below. -/
def dbOfferPhase : Database :=
  { bieter := fun _ => none, offer := fun _ => none, state := stateOffer }

def dbWithBieter : Database :=
  { bieter := fun i => if i = "7" then some (.bytes true "x") else none,
    offer := fun _ => none,
    state := stateRegistration }

/-- C1: for every sequence of events, applying it live (validate, then on
acceptance append the encoded event to the log and execute) from the empty
initial store and then replaying the produced log — decoding each record by
its type tag and executing only — from the empty initial store yields
exactly the terminal store of the live run (member map, offer map and
phase). -/
theorem c1_replay_determinism (events : List Event) :
    replay (liveRun events).2 = some (liveRun events).1 :=
  replayFrom_liveRunFrom events emptyDatabase

/-- C2: for every event variant and store state, when `validate` returns an
error the apply operation leaves the store and the log completely unchanged
and returns that validation error untouched. -/
theorem c2_validation_failure_side_effect_free (e : Event) (db : Database)
    (log : List LogRecord) (err : validationError)
    (h : e.validate db = some err) :
    writeEvent db log e = (db, log, some err) := by
  simp [writeEvent, h]

theorem c2_witness :
    writeEvent dbOfferPhase [] (.delete ⟨"7", false⟩) =
      (dbOfferPhase, [], some ⟨"invalid state"⟩) :=
  c2_validation_failure_side_effect_free (.delete ⟨"7", false⟩) dbOfferPhase []
    ⟨"invalid state"⟩ rfl

/-- C3: in every store whose phase is not Registration, a non-admin
update/create or delete event fails validation with a validation error;
with `asAdmin = true` the phase check is bypassed in every phase, so
validation reduces to the remaining checks (id existence for update/create,
nothing for delete). -/
theorem c3_phase_gating (db : Database) (eu : eventUpdate) (ed : eventDelete) :
    (db.state ≠ stateRegistration → eu.asAdmin = false →
      eu.validate db = some ⟨"invalid state"⟩) ∧
    (db.state ≠ stateRegistration → ed.asAdmin = false →
      ed.validate db = some ⟨"invalid state"⟩) ∧
    (eu.asAdmin = true →
      eu.validate db =
        if eu.create then
          (if (db.bieter eu.ID).isSome then some errIDExists else none)
        else if !(db.bieter eu.ID).isSome then
          some ⟨"Bieter " ++ goQuote eu.ID ++ " does not exist"⟩
        else none) ∧
    (ed.asAdmin = true → ed.validate db = none) := by
  refine ⟨?_, ?_, ?_, ?_⟩
  · intro hs ha
    simp [eventUpdate.validate, ha, bne_iff_ne, hs]
  · intro hs ha
    simp [eventDelete.validate, ha, bne_iff_ne, hs]
  · intro ha
    simp [eventUpdate.validate, ha]
  · intro ha
    simp [eventDelete.validate, ha]

theorem c3_witness :
    eventUpdate.validate ⟨"7", .bytes true "x", false, false⟩ dbOfferPhase =
      some ⟨"invalid state"⟩ ∧
    eventDelete.validate ⟨"7", false⟩ dbOfferPhase = some ⟨"invalid state"⟩ ∧
    eventDelete.validate ⟨"7", true⟩ dbOfferPhase = none :=
  ⟨(c3_phase_gating dbOfferPhase ⟨"7", .bytes true "x", false, false⟩
      ⟨"7", false⟩).1 (by decide) rfl,
   (c3_phase_gating dbOfferPhase ⟨"7", .bytes true "x", false, false⟩
      ⟨"7", false⟩).2.1 (by decide) rfl,
   (c3_phase_gating dbOfferPhase ⟨"7", .bytes true "x", false, false⟩
      ⟨"7", true⟩).2.2.2 rfl⟩

/-- C4: constructing a SetOffer event fails for every amount below the
minimum threshold 4000, regardless of privilege; validation fails with the
phase error for non-admins outside the Offer phase, fails whenever the
target id is absent from the member map (also for admins), succeeds when
the phase or privilege check passes and the id exists, and `execute`
upserts the offer entry for that id. -/
theorem c4_offer_rules (id : String) (amount : Int) (a : Bool)
    (e : eventOffer) (db : Database) :
    (amount < lowestOffer → (newEventOffer id amount a).2.isSome = true) ∧
    (e.asAdmin = false → db.state ≠ stateOffer →
      e.validate db = some ⟨"invalid state"⟩) ∧
    (db.bieter e.ID = none → (e.validate db).isSome = true) ∧
    ((e.asAdmin = true ∨ db.state = stateOffer) →
      (db.bieter e.ID).isSome = true → e.validate db = none) ∧
    (e.execute db =
      { db with offer := fun i => if i = e.ID then some e.Offer else db.offer i }) := by
  refine ⟨?_, ?_, ?_, ?_, rfl⟩
  · intro h
    simp [newEventOffer, h]
  · intro ha hs
    simp [eventOffer.validate, ha, bne_iff_ne, hs]
  · intro h
    unfold eventOffer.validate
    split
    · rfl
    · simp [h]
  · intro h1 h2
    cases h1 with
    | inl ha => simp [eventOffer.validate, ha, h2]
    | inr hs => simp [eventOffer.validate, hs, h2]

theorem c4_witness :
    (newEventOffer "7" 3000 true).2.isSome = true ∧
    eventOffer.validate ⟨"7", 5000, false⟩ dbWithBieter = some ⟨"invalid state"⟩ ∧
    (eventOffer.validate ⟨"9", 5000, true⟩ dbWithBieter).isSome = true ∧
    eventOffer.validate ⟨"7", 5000, true⟩ dbWithBieter = none :=
  ⟨(c4_offer_rules "7" 3000 true ⟨"7", 5000, true⟩ dbWithBieter).1 (by decide),
   (c4_offer_rules "7" 3000 true ⟨"7", 5000, false⟩ dbWithBieter).2.1 rfl
     (by decide),
   (c4_offer_rules "7" 3000 true ⟨"9", 5000, true⟩ dbWithBieter).2.2.1 rfl,
   (c4_offer_rules "7" 3000 true ⟨"7", 5000, true⟩ dbWithBieter).2.2.2.1
     (Or.inl rfl) (by decide)⟩

/-- C5: `getEvent` yields none ("no such event") for every tag outside the
five recognized ones, and replay of any log containing a record whose tag
does not decode fails as a whole instead of skipping the record. -/
theorem c5_unknown_tag_rejected (tag : String) (data : RecordData)
    (db : Database) (rs : List LogRecord) (r : LogRecord) :
    (tag ≠ "update" → tag ≠ "delete" → tag ≠ "state" → tag ≠ "offer" →
      tag ≠ "offer-clear" → getEvent tag data = none) ∧
    (getEvent r.tag r.data = none → r ∈ rs → replayFrom db rs = none) := by
  constructor
  · intro h1 h2 h3 h4 h5
    unfold getEvent
    split <;> simp_all
  · intro hdec
    induction rs generalizing db with
    | nil => intro hmem; cases hmem
    | cons s ss ih =>
      intro hmem
      cases hmem with
      | head =>
        simp only [replayFrom, hdec]
      | tail _ hmem =>
        cases hg : getEvent s.tag s.data with
        | none => simp only [replayFrom, hg]
        | some e =>
          simp only [replayFrom, hg]
          exact ih _ hmem

theorem c5_witness :
    getEvent "bogus" ⟨none, none, none, none⟩ = none ∧
    replayFrom emptyDatabase [⟨"bogus", ⟨none, none, none, none⟩⟩] = none :=
  ⟨(c5_unknown_tag_rejected "bogus" ⟨none, none, none, none⟩ emptyDatabase
      [⟨"bogus", ⟨none, none, none, none⟩⟩]
      ⟨"bogus", ⟨none, none, none, none⟩⟩).1
      (by decide) (by decide) (by decide) (by decide) (by decide),
   (c5_unknown_tag_rejected "bogus" ⟨none, none, none, none⟩ emptyDatabase
      [⟨"bogus", ⟨none, none, none, none⟩⟩]
      ⟨"bogus", ⟨none, none, none, none⟩⟩).2
      (by decide) (List.mem_singleton.mpr rfl)⟩

/-- C6: constructing a SetPhase event fails with a validation error for
every value outside 1..3; for a value inside it succeeds carrying that
value, and after executing the event reading the phase returns the new
value. -/
theorem c6_set_phase (s : ServiceState) (db : Database) :
    ((s < 1 ∨ 3 < s) → (newEventStatus s).2.isSome = true) ∧
    (1 ≤ s → s ≤ 3 →
      (newEventStatus s).2 = none ∧
      (newEventStatus s).1 = ⟨s⟩ ∧
      ((newEventStatus s).1.execute db).State = s) := by
  constructor
  · intro h
    have hc : (s < 1 || s > 3) = true := by
      rcases h with h | h <;> simp [h]
    simp [newEventStatus, hc]
  · intro h1 h2
    have hc : (s < 1 || s > 3) = false := by
      simp only [Bool.or_eq_false_iff, decide_eq_false_iff_not]
      exact ⟨not_lt.mpr h1, not_lt.mpr h2⟩
    simp [newEventStatus, hc, eventServiceState.execute, Database.State]

theorem c6_witness :
    (newEventStatus 4).2.isSome = true ∧
    (newEventStatus 2).2 = none ∧
    ((newEventStatus 2).1.execute dbWithBieter).State = 2 :=
  ⟨(c6_set_phase 4 dbWithBieter).1 (Or.inr (by decide)),
   ((c6_set_phase 2 dbWithBieter).2 (by decide) (by decide)).1,
   ((c6_set_phase 2 dbWithBieter).2 (by decide) (by decide)).2.2⟩

/-- C7: constructing an Update or Create event fails exactly when the
payload is nil or not valid JSON; a Create event (create flag set) fails
validation whenever the target id already exists, and with `asAdmin = true`
that failure is precisely the id-collision error. -/
theorem c7_payload_and_collision (id : String) (p : RawMessage) (a : Bool)
    (e : eventUpdate) (db : Database) :
    ((newEventUpdate id p a).2.isSome = true ↔
      (p.isNil = true ∨ jsonValid p = false)) ∧
    ((newEventCreate id p a).2.isSome = true ↔
      (p.isNil = true ∨ jsonValid p = false)) ∧
    (e.create = true → (db.bieter e.ID).isSome = true →
      (e.validate db).isSome = true) ∧
    (e.create = true → e.asAdmin = true → (db.bieter e.ID).isSome = true →
      e.validate db = some errIDExists) := by
  refine ⟨?_, ?_, ?_, ?_⟩
  · cases p with
    | nil => simp [newEventUpdate, RawMessage.isNil]
    | bytes v c => cases v <;> simp [newEventUpdate, RawMessage.isNil, jsonValid]
  · cases p with
    | nil => simp [newEventCreate, newEventUpdate, RawMessage.isNil]
    | bytes v c =>
      cases v <;> simp [newEventCreate, newEventUpdate, RawMessage.isNil, jsonValid]
  · intro h1 h2
    unfold eventUpdate.validate
    split
    · rfl
    · simp [h1, h2]
  · intro h1 ha h2
    simp [eventUpdate.validate, h1, ha, h2]

theorem c7_witness :
    (newEventUpdate "7" .nil false).2.isSome = true ∧
    (newEventCreate "7" (.bytes false "x") true).2.isSome = true ∧
    (newEventUpdate "7" (.bytes true "x") false).2.isSome = false ∧
    eventUpdate.validate ⟨"7", .bytes true "x", true, true⟩ dbWithBieter =
      some errIDExists :=
  ⟨(c7_payload_and_collision "7" .nil false ⟨"", .nil, false, false⟩
      dbWithBieter).1.mpr (Or.inl rfl),
   (c7_payload_and_collision "7" (.bytes false "x") true ⟨"", .nil, false, false⟩
      dbWithBieter).2.1.mpr (Or.inr rfl),
   by
    have h := (c7_payload_and_collision "7" (.bytes true "x") false
      ⟨"", .nil, false, false⟩ dbWithBieter).1
    revert h
    decide,
   (c7_payload_and_collision "7" (.bytes true "x") false
      ⟨"7", .bytes true "x", true, true⟩ dbWithBieter).2.2.2 rfl rfl (by decide)⟩

/-- C8: a ClearOffers event passes validation against every store state
(its validation performs no checks), and after its execution every member
id has no offer entry and the offer read returns the absent value 0. -/
theorem c8_clear_offers (e : eventOfferClear) (db : Database) (id : String) :
    e.validate db = none ∧
    (e.execute db).offer id = none ∧
    (e.execute db).Offer id = 0 :=
  ⟨rfl, rfl, rfl⟩

/-- C9: executing a Delete event for id X removes X from the member map and
changes nothing else: every other member entry, the phase and the entire
offer map — including any offer entry stored under X, which stays
retrievable — are unchanged. -/
theorem c9_delete_frame (e : eventDelete) (db : Database) :
    (e.execute db).bieter e.ID = none ∧
    (∀ i, i ≠ e.ID → (e.execute db).bieter i = db.bieter i) ∧
    (e.execute db).state = db.state ∧
    (e.execute db).offer = db.offer ∧
    (e.execute db).Offer e.ID = db.Offer e.ID := by
  refine ⟨?_, ?_, rfl, rfl, rfl⟩
  · simp [eventDelete.execute]
  · intro i h
    simp [eventDelete.execute, h]

theorem c9_witness :
    (eventDelete.execute ⟨"7", true⟩ dbWithBieter).bieter "9" =
      dbWithBieter.bieter "9" :=
  (c9_delete_frame ⟨"7", true⟩ dbWithBieter).2.1 "9" (by decide)

/-- C10: `eventUpdate.execute` is exactly the assignment of the payload to
the member map at the target id, independent of the unexported `create` and
`asAdmin` flags; decoding the JSON encoding of a Create event yields the
Update event with both flags false, whose execute effect is identical. -/
theorem c10_execute_ignores_flags (e : eventUpdate) (c a : Bool)
    (db : Database) :
    (e.execute db =
      { db with bieter := fun i => if i = e.ID then some e.Payload else db.bieter i }) ∧
    (eventUpdate.execute { e with create := c, asAdmin := a } db = e.execute db) ∧
    (getEvent (Event.encode (.update e)).tag (Event.encode (.update e)).data =
      some (.update ⟨e.ID, e.Payload, false, false⟩)) ∧
    (eventUpdate.execute ⟨e.ID, e.Payload, false, false⟩ db = e.execute db) :=
  ⟨rfl, rfl, rfl, rfl⟩

end Bieterrunde
